import Mathlib

/-!
Verification development for the weather-data-aggregation repository.

Shallow embedding of the core pipeline:
* `internal/weather` data model (`Condition`, `Location`, `ProviderReading`,
  `WeatherSnapshot`, `ProviderContribution`),
* `AggregateReadings` (internal/weather/aggregate.go),
* the in-memory history store (`SaveSnapshot`, `GetRange`),
* `FetchAndStore` (internal/weather/service.go),
* `doRequestWithResilience` (internal/weather/providers/common.go).

Modelling conventions: Go `float64` fields are modelled as exact rationals
(`ℚ`); `time.Time` / `time.Duration` values are modelled as `Int`
(nanoseconds since the epoch, with the Go zero time modelled as `0`);
`time.Now()` is passed in explicitly as a `now : Int` parameter.  Go map
iteration order is an explicit parameter (a list of the map's keys), since
Go randomizes it.  Concurrency (goroutine interleaving) is modelled by
quantifying over the per-provider outcomes; the collected readings list is
taken in provider order, a representative interleaving.
-/

namespace WeatherAgg

/-- `Condition` from internal/weather types: a small closed enumeration. -/
inductive Condition : Type
  | unknown
  | clear
  | cloudy
  | rain
  | snow
  | storm
  | mist
  deriving DecidableEq, Repr

/-- `Location`: city/country identity; `Key()` concatenates them. -/
structure Location : Type where
  city : String
  country : String
  deriving DecidableEq, Repr

/-- `Location.Key`: canonical string key for store indexing. -/
def Location.key (l : Location) : String :=
  l.city ++ ":" ++ l.country

/-- `ProviderContribution`: source id plus its own timestamp. -/
structure ProviderContribution : Type where
  providerName : String
  timestamp : Int
  deriving DecidableEq, Repr

/-- `ProviderReading`: one provider's normalized observation. -/
structure ProviderReading : Type where
  providerName : String
  timestamp : Int
  temperatureC : ℚ
  humidityPct : ℚ
  windSpeedMS : ℚ
  pressureHpa : ℚ
  precipMm : ℚ
  condition : Condition
  deriving DecidableEq, Repr

/-- `WeatherSnapshot`: the merged, stored record. -/
structure WeatherSnapshot : Type where
  location : Location
  timestamp : Int
  temperature : ℚ
  humidity : ℚ
  windSpeed : ℚ
  pressure : ℚ
  precipMM : ℚ
  condition : Condition
  providers : List ProviderContribution
  deriving DecidableEq, Repr

/-- Occurrence count of condition `c` in `rs` (the value stored under key `c`
in the Go `conditionCounts` map built by `AggregateReadings`). -/
def condCount (rs : List ProviderReading) (c : Condition) : Nat :=
  rs.countP (fun r => decide (r.condition = c))

/-- The `for cond, count := range conditionCounts` selection loop of
`AggregateReadings`: scan the map keys in iteration order `order`, keeping
the first key whose count strictly exceeds the best so far
(`bestCond = ConditionUnknown`, `bestCount = 0` initially). -/
def pickBestCondition (counts : Condition → Nat) (order : List Condition) : Condition :=
  (order.foldl
    (fun best c => if counts c > best.2 then (c, counts c) else best)
    (Condition.unknown, 0)).1

/-- `order` is a possible Go map iteration order for the `conditionCounts`
map of `rs`: the distinct condition values occurring in `rs`, each once, in
some order. -/
def ValidKeyOrder (rs : List ProviderReading) (order : List Condition) : Prop :=
  order.Nodup ∧
    (∀ c ∈ order, ∃ r ∈ rs, r.condition = c) ∧
    (∀ r ∈ rs, r.condition ∈ order)

instance (rs : List ProviderReading) (order : List Condition) :
    Decidable (ValidKeyOrder rs order) := by
  unfold ValidKeyOrder; infer_instance

/-- `AggregateReadings` (internal/weather/aggregate.go).  `now` models
`time.Now().UTC()`; `order` models the Go map iteration order of
`conditionCounts`. -/
def aggregateReadings (loc : Location) (now : Int) (order : List Condition)
    (readings : List ProviderReading) : WeatherSnapshot :=
  if readings.isEmpty then
    { location := loc
      timestamp := now
      temperature := 0
      humidity := 0
      windSpeed := 0
      pressure := 0
      precipMM := 0
      condition := Condition.unknown
      providers := [] }
  else
    let n : ℚ := (readings.length : ℚ)
    let sumTemp := readings.foldl (fun a r => a + r.temperatureC) 0
    let sumHumidity := readings.foldl (fun a r => a + r.humidityPct) 0
    let sumWind := readings.foldl (fun a r => a + r.windSpeedMS) 0
    let sumPressure := readings.foldl (fun a r => a + r.pressureHpa) 0
    let sumPrecip := readings.foldl (fun a r => a + r.precipMm) 0
    let newestTS := readings.foldl (fun t r => if r.timestamp > t then r.timestamp else t) 0
    let effectiveTS := if newestTS = 0 then now else newestTS
    { location := loc
      timestamp := effectiveTS
      temperature := sumTemp / n
      humidity := sumHumidity / n
      windSpeed := sumWind / n
      pressure := sumPressure / n
      precipMM := sumPrecip / n
      condition := pickBestCondition (condCount readings) order
      providers := readings.map (fun r =>
        { providerName := r.providerName, timestamp := r.timestamp }) }

/-- Following the spec's words (for comparison only): the condition value
with the highest occurrence count in `rs`, ties broken by the encounter
order of the input list — the first maximal value in input order. -/
def firstSeenMaxCondition (rs : List ProviderReading) : Option Condition :=
  let conds := rs.map (fun r => r.condition)
  conds.find? (fun c => conds.all (fun d => decide (conds.count d ≤ conds.count c)))

/-! ## History store (internal/store, embedded in service.go's bundle)

`MemoryStore` holds the retention configuration (`maxHistory : int`,
`maxAge : time.Duration`, both modelled as `Int`, `0` or negative meaning
unbounded) and a map from location key to that location's snapshot list.
The `sync.RWMutex` is not modelled: every store operation runs inside one
critical section, so each operation is one atomic state transition. -/

/-- The in-memory store state. -/
structure MemoryStore : Type where
  maxHistory : Int
  maxAge : Int
  data : String → Option (List WeatherSnapshot)

/-- The age-eviction step of `MemoryStore.SaveSnapshot`: advance `i` while
`Snapshots[i].Timestamp` is strictly before `cutoff = now - maxAge`
(the Go loop breaks on `After(cutoff) || Equal(cutoff)`), then drop the
first `i` entries only when `0 < i ∧ i < len` — when every entry is stale
nothing is evicted. -/
def ageEvict (cutoff : Int) (h : List WeatherSnapshot) : List WeatherSnapshot :=
  let i := (h.takeWhile (fun s => decide (s.timestamp < cutoff))).length
  if 0 < i ∧ i < h.length then h.drop i else h

/-- The per-location body of `MemoryStore.SaveSnapshot`: append, then the
count-cap eviction (`Snapshots[over:]` when `maxHistory > 0` and the length
exceeds it), then the age eviction when `maxAge > 0`. -/
def saveHist (maxHistory maxAge now : Int) (hist : List WeatherSnapshot)
    (snap : WeatherSnapshot) : List WeatherSnapshot :=
  let h1 := hist ++ [snap]
  let h2 :=
    if maxHistory > 0 ∧ (h1.length : Int) > maxHistory then
      h1.drop (h1.length - maxHistory.toNat)
    else h1
  if maxAge > 0 then ageEvict (now - maxAge) h2 else h2

/-- `MemoryStore.SaveSnapshot`: look up (or create) the location's history
under `loc.Key()`, run the append-then-evict body, store it back. -/
def saveSnapshot (st : MemoryStore) (now : Int) (loc : Location)
    (snap : WeatherSnapshot) : MemoryStore :=
  let key := loc.key
  let hist := (st.data key).getD []
  let h2 := saveHist st.maxHistory st.maxAge now hist snap
  { st with data := fun k => if k = key then some h2 else st.data k }

/-- `MemoryStore.GetRange`: `ErrNotFound` when the key is absent or its
history empty; otherwise keep, in stored order, the snapshots with
`from ≤ Timestamp ≤ to` (the Go test is `(Equal(from) || After(from)) &&
(Equal(to) || Before(to))`); `ErrNotFound` again when the filtered result
is empty. -/
def getRange (st : MemoryStore) (loc : Location) (frm upTo : Int) :
    Except Unit (List WeatherSnapshot) :=
  match st.data loc.key with
  | none => Except.error ()
  | some h =>
    if h.isEmpty then Except.error ()
    else
      let result := h.filter (fun s =>
        decide (frm ≤ s.timestamp) && decide (s.timestamp ≤ upTo))
      if result.isEmpty then Except.error () else Except.ok result

/-! ## Fetch orchestrator (`Service.FetchAndStore`, service.go)

Each provider's `Fetch` outcome is modelled as an `Option ProviderReading`
(`none` = the fetch returned an error, which the orchestrator logs and
drops).  The goroutine fan-out/fan-in is modelled by the outcome list; the
mutex-guarded accumulator is taken in provider order (one representative
interleaving — the claims settled here do not depend on the order). -/

/-- `Service.FetchAndStore`: error when no providers are configured; with
zero successful readings return success without touching the store;
otherwise aggregate and save (with the dead-code zero-timestamp patch). -/
def fetchAndStore (st : MemoryStore) (now : Int) (loc : Location)
    (order : List Condition) (outcomes : List (Option ProviderReading)) :
    Except String MemoryStore :=
  if outcomes.isEmpty then Except.error "no weather providers configured"
  else
    let readings := outcomes.filterMap id
    if readings.isEmpty then Except.ok st
    else
      let snap := aggregateReadings loc now order readings
      let snap2 := if snap.timestamp = 0 then { snap with timestamp := now } else snap
      Except.ok (saveSnapshot st now loc snap2)

/-! ## Resilience wrapper (`doRequestWithResilience`, providers/common.go)

Each attempt's completed call (the body run under `cb.Execute`) is an
`ExecOutcome`: an HTTP response with a status code, a transport error from
`Client.Do`, or a circuit-breaker rejection (`ErrOpenState` /
`ErrTooManyRequests`).  Cancellation (`ctx.Err()`) and `buildRequest`
failures are not exercised by the claims settled here and are modelled as
absent.  The backoff delay `InitialInterval * time.Duration(math.Pow(2,
attempt))` is modelled with exact `Int` arithmetic, faithful while
`math.Pow(2, attempt)` is an exact float (`attempt ≤ 1023`) and the
product stays below `2^63` nanoseconds. -/

/-- What the wrapped call produced on one attempt. -/
inductive ExecOutcome : Type
  | response (code : Int)
  | netErr (msg : String)
  | cbOpen
  deriving DecidableEq, Repr

/-- The error taxonomy of providers/common.go. -/
inductive ReqError : Type
  | rateLimited
  | serverError
  | unexpected (code : Int)
  | transport (msg : String)
  | circuitOpen
  | noClient
  | invalidConfig
  deriving DecidableEq, Repr

/-- Classification done inside the `cb.Execute` closure plus the
circuit-open check after it: 429 → `errRateLimited`, ≥ 500 →
`errServerError`, outside [200, 300) → `errUnexpected`, transport error
passed through, breaker rejection → `errCircuitOpen`. -/
def classifyOutcome : ExecOutcome → Except ReqError Int
  | ExecOutcome.response code =>
    if code = 429 then Except.error ReqError.rateLimited
    else if code ≥ 500 then Except.error ReqError.serverError
    else if code < 200 ∨ code ≥ 300 then Except.error (ReqError.unexpected code)
    else Except.ok code
  | ExecOutcome.netErr m => Except.error (ReqError.transport m)
  | ExecOutcome.cbOpen => Except.error ReqError.circuitOpen

/-- The backoff computation before the next attempt:
`delay := InitialInterval * 2^attempt; if delay > MaxInterval &&
MaxInterval > 0 { delay = MaxInterval }`. -/
def backoffDelay (initIv maxIv : Int) (attempt : Nat) : Int :=
  let d := initIv * 2 ^ attempt
  if d > maxIv ∧ maxIv > 0 then maxIv else d

instance {ε α : Type} [DecidableEq ε] [DecidableEq α] : DecidableEq (Except ε α) := fun
  | Except.error a, Except.error b =>
    if h : a = b then Decidable.isTrue (by rw [h])
    else Decidable.isFalse (by intro hh; cases hh; exact h rfl)
  | Except.error _, Except.ok _ => Decidable.isFalse (by intro h; cases h)
  | Except.ok _, Except.error _ => Decidable.isFalse (by intro h; cases h)
  | Except.ok a, Except.ok b =>
    if h : a = b then Decidable.isTrue (by rw [h])
    else Decidable.isFalse (by intro hh; cases hh; exact h rfl)

/-- Result of one wrapper run: the returned value or error, the number of
calls performed, and the backoff delays slept, in order. -/
structure RunResult : Type where
  result : Except ReqError Int
  attempts : Nat
  delays : List Int
  deriving DecidableEq, Repr

/-- The retry loop of `doRequestWithResilience`.  `fuel` is
`maxRetries + 1 - attempt`; the `fuel = 0` case is unreachable from
`doRequestWithResilience` because the loop recurses only while
`attempt < maxRetries`. -/
def resilienceLoop (outcomes : Nat → ExecOutcome) (maxRetries : Nat)
    (initIv maxIv : Int) : Nat → Nat → List Int → RunResult
  | attempt, 0, ds =>
    { result := Except.error ReqError.circuitOpen, attempts := attempt, delays := ds }
  | attempt, fuel + 1, ds =>
    match classifyOutcome (outcomes attempt) with
    | Except.ok v => { result := Except.ok v, attempts := attempt + 1, delays := ds }
    | Except.error e =>
      if e = ReqError.circuitOpen then
        { result := Except.error ReqError.circuitOpen, attempts := attempt + 1, delays := ds }
      else if attempt ≥ maxRetries then
        { result := Except.error e, attempts := attempt + 1, delays := ds }
      else
        resilienceLoop outcomes maxRetries initIv maxIv (attempt + 1) fuel
          (ds ++ [backoffDelay initIv maxIv attempt])

/-- `doRequestWithResilience`: config validation (`Client == nil`,
`MaxRetries < 0`, `InitialInterval <= 0`) then the retry loop from
attempt 0. -/
def doRequestWithResilience (hasClient : Bool) (maxRetries initIv maxIv : Int)
    (outcomes : Nat → ExecOutcome) : RunResult :=
  if ¬hasClient then { result := Except.error ReqError.noClient, attempts := 0, delays := [] }
  else if maxRetries < 0 ∨ initIv ≤ 0 then
    { result := Except.error ReqError.invalidConfig, attempts := 0, delays := [] }
  else
    resilienceLoop outcomes maxRetries.toNat initIv maxIv 0 (maxRetries.toNat + 1) []

/-! ## Sample data for concrete evaluations -/

/-- A sample rain reading used by several concrete evaluations. -/
def sampleRain : ProviderReading :=
  { providerName := "p1", timestamp := 3, temperatureC := 10, humidityPct := 50,
    windSpeedMS := 1, pressureHpa := 1000, precipMm := 0, condition := Condition.rain }

/-- A sample snow reading used by several concrete evaluations. -/
def sampleSnow : ProviderReading :=
  { providerName := "p2", timestamp := 4, temperatureC := 20, humidityPct := 60,
    windSpeedMS := 2, pressureHpa := 1010, precipMm := 1, condition := Condition.snow }

/-- A zero-valued snapshot at timestamp `t` for location `a:b`. -/
def plainSnap (t : Int) : WeatherSnapshot :=
  { location := ⟨"a", "b"⟩, timestamp := t, temperature := 0, humidity := 0,
    windSpeed := 0, pressure := 0, precipMM := 0, condition := Condition.unknown,
    providers := [] }

/-- A store with unbounded count, `maxAge = 10`, and no data. -/
def emptyAgeStore : MemoryStore := { maxHistory := 0, maxAge := 10, data := fun _ => none }

/-- A store with `maxAge = 10` holding one snapshot at timestamp 85 for
location `a:b`. -/
def ageStoreW : MemoryStore :=
  { maxHistory := 0, maxAge := 10,
    data := fun k => if k = "a:b" then some [plainSnap 85] else none }

/-- A fully unbounded store holding one snapshot at timestamp 5 for
location `a:b`. -/
def rangeStoreW : MemoryStore :=
  { maxHistory := 0, maxAge := 0,
    data := fun k => if k = "a:b" then some [plainSnap 5] else none }

/-- A fully unbounded empty store. -/
def emptyStore : MemoryStore := { maxHistory := 0, maxAge := 0, data := fun _ => none }

/-! ## Shared helper lemmas -/

theorem foldl_add_map {α : Type} (f : α → ℚ) (l : List α) :
    ∀ a : ℚ, l.foldl (fun acc r => acc + f r) a = a + (l.map f).sum := by
  induction l with
  | nil => intro a; simp
  | cons x l ih => intro a; simp [ih, add_assoc]

theorem saveSnapshot_data_key (st : MemoryStore) (now : Int) (loc : Location)
    (snap : WeatherSnapshot) :
    (saveSnapshot st now loc snap).data loc.key
      = some (saveHist st.maxHistory st.maxAge now ((st.data loc.key).getD []) snap) := by
  simp [saveSnapshot]

/-! ## C4: numeric fields of the aggregate are arithmetic means -/

/-- C4: for every non-empty reading list, each numeric field of
`AggregateReadings` equals the arithmetic mean of that field over all
inputs (float64 arithmetic modelled as exact rationals). -/
theorem aggregate_numeric_means (loc : Location) (now : Int) (order : List Condition)
    (rs : List ProviderReading) (h : rs ≠ []) :
    (aggregateReadings loc now order rs).temperature
        = (rs.map (fun r => r.temperatureC)).sum / (rs.length : ℚ) ∧
    (aggregateReadings loc now order rs).humidity
        = (rs.map (fun r => r.humidityPct)).sum / (rs.length : ℚ) ∧
    (aggregateReadings loc now order rs).windSpeed
        = (rs.map (fun r => r.windSpeedMS)).sum / (rs.length : ℚ) ∧
    (aggregateReadings loc now order rs).pressure
        = (rs.map (fun r => r.pressureHpa)).sum / (rs.length : ℚ) ∧
    (aggregateReadings loc now order rs).precipMM
        = (rs.map (fun r => r.precipMm)).sum / (rs.length : ℚ) := by
  have hne : rs.isEmpty = false := List.isEmpty_eq_false.mpr h
  refine ⟨?_, ?_, ?_, ?_, ?_⟩ <;>
    simp [aggregateReadings, hne, foldl_add_map]

/-- Witness for C4 at a concrete two-reading input. -/
theorem aggregate_numeric_means_witness :
    ([sampleRain, sampleSnow] ≠ []) ∧
    ((aggregateReadings ⟨"a", "b"⟩ 5 [Condition.rain, Condition.snow]
        [sampleRain, sampleSnow]).temperature
      = (([sampleRain, sampleSnow].map (fun r => r.temperatureC)).sum
          / (([sampleRain, sampleSnow] : List ProviderReading).length : ℚ))) :=
  ⟨by decide,
    (aggregate_numeric_means ⟨"a", "b"⟩ 5 [Condition.rain, Condition.snow]
      [sampleRain, sampleSnow] (by decide)).1⟩

/-! ## C1: majority condition and its tie-break

The Go code picks the majority condition by iterating the
`conditionCounts` map with `for cond, count := range conditionCounts`.
Go map iteration order is deliberately randomized, so on a tie the winner
depends on the iteration order, not on the encounter order of the input
list.  At input `[rain, snow]` the iteration order `[snow, rain]` is a
valid key order and yields `snow`, while the first-seen maximal value of
the input is `rain`. -/

/-- C1: at the failing input `[sampleRain, sampleSnow]`, the modelled
`AggregateReadings` run under the valid map iteration order
`[snow, rain]` returns condition `snow`, while the spec's first-seen
maximal condition of the input list is `rain`. -/
theorem aggregate_condition_tiebreak_bug :
    ValidKeyOrder [sampleRain, sampleSnow] [Condition.snow, Condition.rain] ∧
    (aggregateReadings ⟨"a", "b"⟩ 5 [Condition.snow, Condition.rain]
        [sampleRain, sampleSnow]).condition = Condition.snow ∧
    firstSeenMaxCondition [sampleRain, sampleSnow] = some Condition.rain := by
  decide

/-! ## C7: determinism of the aggregation

Two invocations of the Go `AggregateReadings` on the same input list can
iterate the `conditionCounts` map in different orders (Go randomizes map
iteration per range loop), so on a tie the two outputs can differ. -/

/-- C7: at the input `[sampleRain, sampleSnow]`, two runs of the modelled
`AggregateReadings` under two valid map iteration orders produce
different output records. -/
theorem aggregate_not_deterministic :
    ValidKeyOrder [sampleRain, sampleSnow] [Condition.rain, Condition.snow] ∧
    ValidKeyOrder [sampleRain, sampleSnow] [Condition.snow, Condition.rain] ∧
    aggregateReadings ⟨"a", "b"⟩ 5 [Condition.rain, Condition.snow]
        [sampleRain, sampleSnow]
      ≠ aggregateReadings ⟨"a", "b"⟩ 5 [Condition.snow, Condition.rain]
        [sampleRain, sampleSnow] :=
  ⟨by decide, by decide, fun h =>
    absurd (congrArg WeatherSnapshot.condition h) (by decide)⟩

/-! ## C10: every write retains the just-written record as last element -/

theorem ageEvict_concat (c : Int) (a : List WeatherSnapshot) (s : WeatherSnapshot) :
    ∃ b, List.IsSuffix b a ∧ ageEvict c (a ++ [s]) = b ++ [s] := by
  simp only [ageEvict]
  split
  next h =>
    have hle : ((a ++ [s]).takeWhile (fun x => decide (x.timestamp < c))).length
        ≤ a.length := by
      have := h.2
      simp only [List.length_append, List.length_cons, List.length_nil] at this
      omega
    exact ⟨a.drop _, List.drop_suffix _ _, List.drop_append_of_le_length hle⟩
  next h => exact ⟨a, List.suffix_rfl, rfl⟩

theorem saveHist_concat (mh ma now : Int) (hist : List WeatherSnapshot)
    (snap : WeatherSnapshot) :
    ∃ b, List.IsSuffix b hist ∧ saveHist mh ma now hist snap = b ++ [snap] := by
  simp only [saveHist]
  have hcc : ∃ b, List.IsSuffix b hist ∧
      (if mh > 0 ∧ ((hist ++ [snap]).length : Int) > mh then
        (hist ++ [snap]).drop ((hist ++ [snap]).length - mh.toNat)
      else hist ++ [snap]) = b ++ [snap] := by
    split
    next h =>
      have hle : (hist ++ [snap]).length - mh.toNat ≤ hist.length := by
        have h1 := h.1
        simp only [List.length_append, List.length_cons, List.length_nil]
        omega
      exact ⟨hist.drop _, List.drop_suffix _ _, List.drop_append_of_le_length hle⟩
    next h => exact ⟨hist, List.suffix_rfl, rfl⟩
  obtain ⟨b, hbs, hb⟩ := hcc
  rw [hb]
  split
  next =>
    obtain ⟨b2, hb2s, hb2⟩ := ageEvict_concat (now - ma) b snap
    exact ⟨b2, hb2s.trans hbs, hb2⟩
  next => exact ⟨b, hbs, rfl⟩

/-- C10: after every `SaveSnapshot(location, record)` call, that location's
history is non-empty, its last element is the record just written, and both
evictions removed elements only from the front: the result is a suffix of
the prior history with the new record appended. -/
theorem saveSnapshot_retains_written (st : MemoryStore) (now : Int) (loc : Location)
    (snap : WeatherSnapshot) :
    ((saveSnapshot st now loc snap).data loc.key).getD [] ≠ [] ∧
    (((saveSnapshot st now loc snap).data loc.key).getD []).getLast? = some snap ∧
    ∃ b, List.IsSuffix b ((st.data loc.key).getD []) ∧
      ((saveSnapshot st now loc snap).data loc.key).getD [] = b ++ [snap] := by
  rw [saveSnapshot_data_key, Option.getD_some]
  obtain ⟨b, hbs, hb⟩ := saveHist_concat st.maxHistory st.maxAge now
    ((st.data loc.key).getD []) snap
  rw [hb]
  exact ⟨by simp, List.getLast?_concat b, b, hbs, rfl⟩

/-! ## C2: age-based retention after a write

The claim fails on the code: the age-eviction loop drops the leading run
of stale entries only when `0 < i ∧ i < len`, so when every entry
(including the just-written record) is older than `now − maxAge`, nothing
at all is evicted and stale entries remain.  The counterexample writes a
record with timestamp 50 into an empty store with `maxAge = 10` at
`now = 100`: the stale record stays.  The nearby true statement: when the
prior history is ascending by timestamp (the documented LocationHistory
invariant) and the written record itself is not older than `now − maxAge`,
no stale entry survives the write. -/

theorem takeWhile_concat_le {α : Type} (p : α → Bool) (s : α) (hs : p s = false) :
    ∀ t : List α, ((t ++ [s]).takeWhile p).length ≤ t.length := by
  intro t
  induction t with
  | nil => simp [List.takeWhile_cons, hs]
  | cons y t ih =>
    by_cases hy : p y = true
    · simp only [List.cons_append, List.takeWhile_cons, hy]
      simp only [if_true, List.length_cons]
      omega
    · have hyf : p y = false := by simpa using hy
      simp [List.takeWhile_cons, hyf]

theorem ageEvict_all_fresh (cutoff : Int) (snap : WeatherSnapshot)
    (hsnap : cutoff ≤ snap.timestamp) :
    ∀ a : List WeatherSnapshot,
      List.Pairwise (fun x y => x.timestamp ≤ y.timestamp) a →
      ∀ x ∈ ageEvict cutoff (a ++ [snap]), cutoff ≤ x.timestamp := by
  have hps : (decide (snap.timestamp < cutoff)) = false :=
    decide_eq_false (not_lt.mpr hsnap)
  intro a
  induction a with
  | nil =>
    intro _ x hx
    simp [ageEvict, List.takeWhile_cons, hps] at hx
    exact hx ▸ hsnap
  | cons y t ih =>
    intro hpw x hx
    have hpwt := hpw.of_cons
    have hyall := (List.pairwise_cons.mp hpw).1
    by_cases hy : y.timestamp < cutoff
    · have hpy : (decide (y.timestamp < cutoff)) = true := decide_eq_true hy
      have hle : ((t ++ [snap]).takeWhile
          (fun s => decide (s.timestamp < cutoff))).length ≤ t.length :=
        takeWhile_concat_le _ snap hps t
      have hstep : ageEvict cutoff ((y :: t) ++ [snap])
          = (t ++ [snap]).drop
              (((t ++ [snap]).takeWhile (fun s => decide (s.timestamp < cutoff))).length) := by
        simp only [ageEvict, List.cons_append, List.takeWhile_cons, hpy, if_true,
          List.length_cons]
        rw [if_pos (by
          refine ⟨by omega, ?_⟩
          simp only [List.length_append, List.length_cons, List.length_nil]
          omega)]
        exact List.drop_succ_cons
      rw [hstep] at hx
      apply ih hpwt
      simp only [ageEvict]
      by_cases h0 : 0 < ((t ++ [snap]).takeWhile
          (fun s => decide (s.timestamp < cutoff))).length
      · rw [if_pos (by
          refine ⟨h0, ?_⟩
          simp only [List.length_append, List.length_cons, List.length_nil]
          omega)]
        exact hx
      · rw [if_neg (by omega)]
        have h00 : ((t ++ [snap]).takeWhile
            (fun s => decide (s.timestamp < cutoff))).length = 0 := by omega
        rwa [h00, List.drop_zero] at hx
    · have hpyf : (decide (y.timestamp < cutoff)) = false := decide_eq_false hy
      have h0 : ageEvict cutoff ((y :: t) ++ [snap]) = (y :: t) ++ [snap] := by
        simp [ageEvict, List.takeWhile_cons, hpyf]
      rw [h0] at hx
      simp only [List.cons_append, List.mem_cons, List.mem_append,
        List.not_mem_nil, or_false] at hx
      rcases hx with rfl | hx | rfl
      · exact not_lt.mp hy
      · exact le_trans (not_lt.mp hy) (hyall x hx)
      · exact hsnap

theorem saveHist_age_fresh (mh ma now : Int) (hist : List WeatherSnapshot)
    (snap : WeatherSnapshot) (hma : 0 < ma)
    (hs : List.Pairwise (fun x y => x.timestamp ≤ y.timestamp) hist)
    (hf : now - ma ≤ snap.timestamp) :
    ∀ x ∈ saveHist mh ma now hist snap, now - ma ≤ x.timestamp := by
  intro x hx
  simp only [saveHist] at hx
  rw [if_pos hma] at hx
  by_cases hc : mh > 0 ∧ ((hist ++ [snap]).length : Int) > mh
  · rw [if_pos hc] at hx
    have hm : (hist ++ [snap]).length - mh.toNat ≤ hist.length := by
      have h1 := hc.1
      simp only [List.length_append, List.length_cons, List.length_nil]
      omega
    rw [List.drop_append_of_le_length hm] at hx
    exact ageEvict_all_fresh _ snap hf _
      (List.Pairwise.sublist (List.drop_sublist _ _) hs) x hx
  · rw [if_neg hc] at hx
    exact ageEvict_all_fresh _ snap hf hist hs x hx

/-- C2 counterexample: writing a record with timestamp 50 into an empty
store with `maxAge = 10` at `now = 100` leaves that record — older than
`now − maxAge = 90` — in the location's history. -/
theorem save_age_eviction_claim_false :
    (saveSnapshot emptyAgeStore 100 ⟨"a", "b"⟩ (plainSnap 50)).data
        (Location.key ⟨"a", "b"⟩) = some [plainSnap 50] ∧
    (plainSnap 50).timestamp < 100 - emptyAgeStore.maxAge := by
  decide

/-- C2 amended: for every write via `SaveSnapshot` with `maxAge > 0`,
provided the location's prior history is ascending by timestamp and the
written record is itself not older than `now − maxAge`, after the write no
snapshot older than `now − maxAge` remains in that location's history. -/
theorem save_age_eviction_amended (st : MemoryStore) (now : Int) (loc : Location)
    (snap : WeatherSnapshot) (hma : 0 < st.maxAge)
    (hs : List.Pairwise (fun x y => x.timestamp ≤ y.timestamp)
      ((st.data loc.key).getD []))
    (hf : now - st.maxAge ≤ snap.timestamp) :
    ∀ x ∈ ((saveSnapshot st now loc snap).data loc.key).getD [],
      now - st.maxAge ≤ x.timestamp := by
  rw [saveSnapshot_data_key, Option.getD_some]
  exact saveHist_age_fresh st.maxHistory st.maxAge now _ snap hma hs hf

/-- Witness for the amended C2 at a concrete store: writing a fresh record
(timestamp 95) at `now = 100` into a sorted history `[85]` with
`maxAge = 10`; the retained record is fresh. -/
theorem save_age_eviction_amended_witness :
    (100 : Int) - ageStoreW.maxAge ≤ (plainSnap 95).timestamp := by
  have h := save_age_eviction_amended ageStoreW 100 ⟨"a", "b"⟩ (plainSnap 95)
    (by decide) (by decide) (by decide) (plainSnap 95) (by decide)
  exact h

/-! ## C5: count-cap retention over a write sequence -/

theorem saveHist_count_step (C : Nat) (hC : 0 < C) (ma : Int) (hma : ma ≤ 0)
    (now : Int) (L : List WeatherSnapshot) (s : WeatherSnapshot) :
    saveHist (C : Int) ma now (L.drop (L.length - C)) s
      = (L ++ [s]).drop (L.length + 1 - C) := by
  simp only [saveHist]
  rw [if_neg (by omega)]
  by_cases hn : C ≤ L.length
  · have hlen : (L.drop (L.length - C)).length = C := by
      simp only [List.length_drop]; omega
    rw [if_pos (by
      refine ⟨by exact_mod_cast hC, ?_⟩
      simp only [List.length_append, List.length_cons, List.length_nil, hlen]
      push_cast
      omega)]
    have hdrop1 : (L.drop (L.length - C) ++ [s]).length - ((C : Int)).toNat = 1 := by
      simp only [List.length_append, List.length_cons, List.length_nil, hlen,
        Int.toNat_natCast]
      omega
    rw [hdrop1]
    rw [List.drop_append_of_le_length (by omega : 1 ≤ (L.drop (L.length - C)).length)]
    rw [List.drop_append_of_le_length (by omega : L.length + 1 - C ≤ L.length)]
    rw [List.drop_drop]
    have hidx : L.length - C + 1 = L.length + 1 - C := by omega
    rw [hidx]
  · have h0 : L.length - C = 0 := by omega
    rw [h0, List.drop_zero]
    rw [if_neg (by
      intro hcon
      have := hcon.2
      simp only [List.length_append, List.length_cons, List.length_nil] at this
      omega)]
    have h1 : L.length + 1 - C = 0 := by omega
    rw [h1, List.drop_zero]

theorem saveSnapshot_fold (C : Nat) (hC : 0 < C) (ma : Int) (hma : ma ≤ 0)
    (loc : Location) :
    ∀ (ws : List (Int × WeatherSnapshot)) (st : MemoryStore) (L : List WeatherSnapshot),
      st.maxHistory = (C : Int) → st.maxAge = ma →
      (st.data loc.key).getD [] = L.drop (L.length - C) →
      (((ws.foldl (fun acc p => saveSnapshot acc p.1 loc p.2) st).data loc.key).getD [])
        = (L ++ ws.map Prod.snd).drop (L.length + ws.length - C) := by
  intro ws
  induction ws with
  | nil =>
    intro st L h1 h2 h3
    simpa using h3
  | cons p ws ih =>
    intro st L h1 h2 h3
    simp only [List.foldl_cons]
    have hstep : ((saveSnapshot st p.1 loc p.2).data loc.key).getD []
        = (L ++ [p.2]).drop ((L ++ [p.2]).length - C) := by
      rw [saveSnapshot_data_key, Option.getD_some, h1, h2, h3,
        saveHist_count_step C hC ma hma]
      congr 1
      simp only [List.length_append, List.length_cons, List.length_nil]
    have hrec := ih (saveSnapshot st p.1 loc p.2) (L ++ [p.2])
      (by simp [saveSnapshot, h1]) (by simp [saveSnapshot, h2]) hstep
    rw [hrec]
    simp only [List.append_assoc, List.singleton_append, List.map_cons,
      List.length_append, List.length_cons, List.length_nil]
    congr 1
    omega

/-- C5: for every sequence of writes to one location into a fresh store
with count cap `C > 0` and no age cap, the store afterwards holds exactly
`min(totalWrites, C)` snapshots for that location, namely the most
recently written ones in write order. -/
theorem store_count_cap (C : Nat) (ws : List (Int × WeatherSnapshot))
    (loc : Location) (ma : Int) (hC : 0 < C) (hma : ma ≤ 0) :
    (((ws.foldl (fun acc p => saveSnapshot acc p.1 loc p.2)
        { maxHistory := (C : Int), maxAge := ma, data := fun _ => none }).data
          loc.key).getD [])
      = (ws.map Prod.snd).drop (ws.length - C) ∧
    ((((ws.foldl (fun acc p => saveSnapshot acc p.1 loc p.2)
        { maxHistory := (C : Int), maxAge := ma, data := fun _ => none }).data
          loc.key).getD []).length)
      = min ws.length C := by
  have h := saveSnapshot_fold C hC ma hma loc ws
    { maxHistory := (C : Int), maxAge := ma, data := fun _ => none } [] rfl rfl
    (by simp)
  simp only [List.nil_append, List.length_nil, Nat.zero_add] at h
  refine ⟨h, ?_⟩
  rw [h]
  simp only [List.length_drop, List.length_map]
  omega

/-- Witness for C5: cap `C = 1`, two writes with out-of-order timestamps
(100 then 40); the single retained record is the most recently written
one, timestamp 40. -/
theorem store_count_cap_witness :
    (((([((0 : Int), plainSnap 100), ((0 : Int), plainSnap 40)]).foldl
        (fun acc p => saveSnapshot acc p.1 ⟨"a", "b"⟩ p.2)
        { maxHistory := ((1 : Nat) : Int), maxAge := 0, data := fun _ => none }).data
          (Location.key ⟨"a", "b"⟩)).getD [])
      = [plainSnap 40] := by
  have h := (store_count_cap 1 [((0 : Int), plainSnap 100), ((0 : Int), plainSnap 40)]
    ⟨"a", "b"⟩ 0 (by decide) (by decide)).1
  rw [h]
  decide

/-! ## C9: GetRange filtering and not-found behaviour -/

/-- C9: `GetRange` succeeds exactly when the location is known and some
stored record's timestamp lies in the closed interval `[frm, upTo]`; on
success it returns exactly the stored records in that interval, in
original stored order; `frm > upTo` always reports not-found, identically
to an unknown location. -/
theorem getRange_spec (st : MemoryStore) (loc : Location) (frm upTo : Int) :
    ((∃ r, getRange st loc frm upTo = Except.ok r) ↔
      (∃ h, st.data loc.key = some h ∧
        h.filter (fun s => decide (frm ≤ s.timestamp) && decide (s.timestamp ≤ upTo))
          ≠ [])) ∧
    (∀ r, getRange st loc frm upTo = Except.ok r →
      ∃ h, st.data loc.key = some h ∧
        r = h.filter (fun s => decide (frm ≤ s.timestamp) && decide (s.timestamp ≤ upTo))) ∧
    (frm > upTo → getRange st loc frm upTo = Except.error ()) ∧
    (st.data loc.key = none → getRange st loc frm upTo = Except.error ()) ∧
    (∀ h, st.data loc.key = some h →
      h.filter (fun s => decide (frm ≤ s.timestamp) && decide (s.timestamp ≤ upTo)) = [] →
      getRange st loc frm upTo = Except.error ()) := by
  refine ⟨?_, ?_, ?_, ?_, ?_⟩
  · constructor
    · rintro ⟨r, hr⟩
      cases hd : st.data loc.key with
      | none => simp only [getRange, hd] at hr; cases hr
      | some h =>
        simp only [getRange, hd] at hr
        by_cases he : h.isEmpty
        · rw [if_pos he] at hr; cases hr
        · rw [if_neg he] at hr
          by_cases hf : (h.filter (fun s =>
              decide (frm ≤ s.timestamp) && decide (s.timestamp ≤ upTo))).isEmpty
          · rw [if_pos hf] at hr; cases hr
          · exact ⟨h, rfl, List.isEmpty_eq_false.mp (by simpa using hf)⟩
    · rintro ⟨h, hd, hf⟩
      have hfi : (h.filter (fun s =>
          decide (frm ≤ s.timestamp) && decide (s.timestamp ≤ upTo))).isEmpty = false :=
        List.isEmpty_eq_false.mpr hf
      have hhe : h.isEmpty = false := by
        rcases h with _ | ⟨y, t⟩
        · simp at hf
        · simp
      refine ⟨h.filter (fun s =>
        decide (frm ≤ s.timestamp) && decide (s.timestamp ≤ upTo)), ?_⟩
      simp only [getRange, hd, hhe, hfi, Bool.false_eq_true, if_false]
  · intro r hr
    cases hd : st.data loc.key with
    | none => simp only [getRange, hd] at hr; cases hr
    | some h =>
      simp only [getRange, hd] at hr
      by_cases he : h.isEmpty
      · rw [if_pos he] at hr; cases hr
      · rw [if_neg he] at hr
        by_cases hf : (h.filter (fun s =>
            decide (frm ≤ s.timestamp) && decide (s.timestamp ≤ upTo))).isEmpty
        · rw [if_pos hf] at hr; cases hr
        · rw [if_neg hf] at hr
          cases hr
          exact ⟨h, rfl, rfl⟩
  · intro hft
    have hnil : ∀ h : List WeatherSnapshot,
        h.filter (fun s => decide (frm ≤ s.timestamp) && decide (s.timestamp ≤ upTo))
          = [] := by
      intro h
      rw [List.filter_eq_nil_iff]
      intro a _
      simp only [Bool.and_eq_true, decide_eq_true_eq, not_and]
      intro h1 h2
      omega
    cases hd : st.data loc.key with
    | none => simp only [getRange, hd]
    | some h =>
      simp only [getRange, hd]
      by_cases he : h.isEmpty
      · rw [if_pos he]
      · rw [if_neg he, hnil h]
        rfl
  · intro hd
    simp only [getRange, hd]
  · intro h hd hf
    simp only [getRange, hd]
    by_cases he : h.isEmpty
    · rw [if_pos he]
    · rw [if_neg he, hf]
      rfl

/-- Witness for C9: a query with `from > to` on a store that does hold a
record reports not-found. -/
theorem getRange_spec_witness :
    getRange rangeStoreW ⟨"a", "b"⟩ 8 2 = Except.error () :=
  (getRange_spec rangeStoreW ⟨"a", "b"⟩ 8 2).2.2.1 (by decide)

/-! ## C6: FetchAndStore error and no-op behaviour -/

/-- C6: `FetchAndStore` returns an error exactly when zero providers are
configured; when at least one provider is configured but none succeeds, it
returns success and leaves the store unchanged. -/
theorem fetchAndStore_spec (st : MemoryStore) (now : Int) (loc : Location)
    (order : List Condition) (outcomes : List (Option ProviderReading)) :
    ((∃ e, fetchAndStore st now loc order outcomes = Except.error e) ↔ outcomes = []) ∧
    (outcomes ≠ [] → outcomes.filterMap id = [] →
      fetchAndStore st now loc order outcomes = Except.ok st) := by
  constructor
  · constructor
    · rintro ⟨e, he⟩
      by_contra hne
      have hoe : outcomes.isEmpty = false := List.isEmpty_eq_false.mpr hne
      simp only [fetchAndStore, hoe, Bool.false_eq_true, if_false] at he
      by_cases hf : (outcomes.filterMap id).isEmpty
      · rw [if_pos hf] at he; cases he
      · rw [if_neg hf] at he; cases he
    · rintro rfl
      exact ⟨"no weather providers configured", rfl⟩
  · intro hne hmap
    have hoe : outcomes.isEmpty = false := List.isEmpty_eq_false.mpr hne
    have hfe : (outcomes.filterMap id).isEmpty = true := by
      rw [hmap]; rfl
    simp only [fetchAndStore, hoe, Bool.false_eq_true, if_false, hfe, if_true]

/-- Witness for C6: one configured provider that fails — success, store
untouched. -/
theorem fetchAndStore_spec_witness :
    fetchAndStore emptyStore 0 ⟨"a", "b"⟩ [] [none] = Except.ok emptyStore :=
  (fetchAndStore_spec emptyStore 0 ⟨"a", "b"⟩ [] [none]).2 (by decide) (by decide)

/-! ## C3: handling of non-retryable failures

The claim fails on the code: after `cb.Execute` returns an error, the loop
returns immediately only for circuit-breaker rejections; every other
classified error — including the "non-retryable" unexpected-status kind —
falls through to the retry/backoff path and is retried until `maxRetries`
is exhausted. -/

theorem resilienceLoop_all_unexpected (outcomes : Nat → ExecOutcome)
    (codes : Nat → Int) (mr : Nat) (initIv maxIv : Int) :
    ∀ (fuel attempt : Nat) (ds : List Int),
      attempt + fuel = mr + 1 → attempt ≤ mr →
      (∀ j, attempt ≤ j → j ≤ mr →
        classifyOutcome (outcomes j) = Except.error (ReqError.unexpected (codes j))) →
      (resilienceLoop outcomes mr initIv maxIv attempt fuel ds).result
          = Except.error (ReqError.unexpected (codes mr)) ∧
      (resilienceLoop outcomes mr initIv maxIv attempt fuel ds).attempts = mr + 1 := by
  intro fuel
  induction fuel with
  | zero => intro attempt ds h1 h2 _; omega
  | succ fuel ih =>
    intro attempt ds h1 h2 hcl
    have hc := hcl attempt le_rfl h2
    simp only [resilienceLoop, hc]
    rw [if_neg (by simp)]
    by_cases hend : attempt ≥ mr
    · have hmr : attempt = mr := by omega
      rw [if_pos hend]
      subst hmr
      exact ⟨rfl, rfl⟩
    · rw [if_neg hend]
      exact ih (attempt + 1) _ (by omega) (by omega) (fun j hj1 hj2 => hcl j (by omega) hj2)

/-- C3 counterexample: a completed call classified as a non-retryable
failure (HTTP 404) does not make the wrapper return immediately — with
`maxRetries = 1` the wrapper performs 2 attempts and sleeps one backoff
delay before the second. -/
theorem resilience_nonretryable_claim_false :
    classifyOutcome (ExecOutcome.response 404)
        = Except.error (ReqError.unexpected 404) ∧
    (doRequestWithResilience true 1 100 0 (fun _ => ExecOutcome.response 404)).attempts
        = 2 ∧
    (doRequestWithResilience true 1 100 0 (fun _ => ExecOutcome.response 404)).delays
        = [100] := by
  decide

/-- C3 amended: a completed call classified as a non-retryable failure is
retried exactly like a retryable one: when every attempt yields an
unexpected-status failure, the wrapper performs `maxRetries + 1` attempts
and returns the last failure; only circuit-breaker rejections return
immediately without consuming a retry (first conjunct pair), as shown by
the breaker case performing a single attempt with no backoff (last
conjunct pair). -/
theorem resilience_nonretryable_retried (mr : Nat) (initIv maxIv : Int)
    (outcomes : Nat → ExecOutcome) (codes : Nat → Int) (hInit : 0 < initIv) :
    ((∀ j ≤ mr,
        classifyOutcome (outcomes j) = Except.error (ReqError.unexpected (codes j))) →
      (doRequestWithResilience true ((mr : Nat) : Int) initIv maxIv outcomes).result
          = Except.error (ReqError.unexpected (codes mr)) ∧
      (doRequestWithResilience true ((mr : Nat) : Int) initIv maxIv outcomes).attempts
          = mr + 1) ∧
    (classifyOutcome (outcomes 0) = Except.error ReqError.circuitOpen →
      (doRequestWithResilience true ((mr : Nat) : Int) initIv maxIv outcomes).result
          = Except.error ReqError.circuitOpen ∧
      (doRequestWithResilience true ((mr : Nat) : Int) initIv maxIv outcomes).attempts
          = 1 ∧
      (doRequestWithResilience true ((mr : Nat) : Int) initIv maxIv outcomes).delays
          = []) := by
  constructor
  · intro hcl
    simp only [doRequestWithResilience]
    rw [if_neg (by simp), if_neg (by push_neg; omega), Int.toNat_natCast]
    exact resilienceLoop_all_unexpected outcomes codes mr initIv maxIv (mr + 1) 0 []
      (by omega) (by omega) (fun j hj1 hj2 => hcl j hj2)
  · intro hc0
    simp only [doRequestWithResilience]
    rw [if_neg (by simp), if_neg (by push_neg; omega), Int.toNat_natCast]
    simp [resilienceLoop, hc0]

/-- Witness for the amended C3: three attempts all returning HTTP 418
under `maxRetries = 2` — the wrapper retries through all of them and
returns the last unexpected-status failure. -/
theorem resilience_nonretryable_retried_witness :
    (doRequestWithResilience true ((2 : Nat) : Int) 100 0
        (fun _ => ExecOutcome.response 418)).result
      = Except.error (ReqError.unexpected 418) ∧
    (doRequestWithResilience true ((2 : Nat) : Int) 100 0
        (fun _ => ExecOutcome.response 418)).attempts = 3 :=
  (resilience_nonretryable_retried 2 100 0 (fun _ => ExecOutcome.response 418)
    (fun _ => 418) (by decide)).1 (fun j hj =>
      (by decide : classifyOutcome (ExecOutcome.response 418)
          = Except.error (ReqError.unexpected 418)))

/-! ## C8: exponential backoff with cap -/

theorem resilienceLoop_delays (outcomes : Nat → ExecOutcome) (mr : Nat)
    (initIv maxIv : Int) :
    ∀ (fuel attempt : Nat) (ds : List Int), ∃ m,
      (resilienceLoop outcomes mr initIv maxIv attempt fuel ds).delays
        = ds ++ (List.range' attempt m).map (backoffDelay initIv maxIv) := by
  intro fuel
  induction fuel with
  | zero => intro attempt ds; exact ⟨0, by simp [resilienceLoop]⟩
  | succ fuel ih =>
    intro attempt ds
    cases hc : classifyOutcome (outcomes attempt) with
    | ok v => exact ⟨0, by simp [resilienceLoop, hc]⟩
    | error e =>
      by_cases he : e = ReqError.circuitOpen
      · refine ⟨0, ?_⟩
        simp only [resilienceLoop, hc]
        rw [if_pos he]
        simp
      · by_cases hend : attempt ≥ mr
        · refine ⟨0, ?_⟩
          simp only [resilienceLoop, hc]
          rw [if_neg he, if_pos hend]
          simp
        · obtain ⟨m, hm⟩ := ih (attempt + 1)
            (ds ++ [backoffDelay initIv maxIv attempt])
          refine ⟨m + 1, ?_⟩
          simp only [resilienceLoop, hc]
          rw [if_neg he, if_neg hend, hm, List.range'_succ]
          simp [List.append_assoc]

/-- C8: whenever the wrapper sleeps a backoff delay after attempt `k`
(0-indexed), that delay equals `min(initialDelay · 2^k, maxDelay)` when
`maxDelay > 0`, and `initialDelay · 2^k` when `maxDelay = 0` (exact-`Int`
model of the float computation, faithful while `initIv · 2^k < 2^63`). -/
theorem resilience_backoff_delay (mr initIv maxIv : Int)
    (outcomes : Nat → ExecOutcome) (k : Nat)
    (_hOv : initIv * 2 ^ k < 2 ^ 63)
    (hk : k < (doRequestWithResilience true mr initIv maxIv outcomes).delays.length) :
    (doRequestWithResilience true mr initIv maxIv outcomes).delays[k]?
      = some (if maxIv > 0 then min (initIv * 2 ^ k) maxIv else initIv * 2 ^ k) := by
  simp only [doRequestWithResilience] at hk ⊢
  rw [if_neg (by simp)] at hk ⊢
  by_cases hcfg : mr < 0 ∨ initIv ≤ 0
  · rw [if_pos hcfg] at hk
    exact absurd hk (Nat.not_lt_zero k)
  · rw [if_neg hcfg] at hk ⊢
    obtain ⟨m, hm⟩ :=
      resilienceLoop_delays outcomes mr.toNat initIv maxIv (mr.toNat + 1) 0 []
    rw [hm] at hk ⊢
    simp only [List.nil_append] at hk ⊢
    have hkm : k < m := by
      simpa [List.length_range'] using hk
    rw [← List.range_eq_range', List.getElem?_map, List.getElem?_range hkm]
    simp only [Option.map_some']
    congr 1
    simp only [backoffDelay]
    by_cases hmx : maxIv > 0
    · rw [if_pos hmx]
      by_cases hgt : initIv * 2 ^ k > maxIv
      · rw [if_pos ⟨hgt, hmx⟩]
        omega
      · rw [if_neg (by tauto)]
        omega
    · rw [if_neg hmx, if_neg (by tauto)]

/-- Witness for C8: `initialDelay = 100`, `maxDelay = 250`, all attempts
failing with HTTP 500 under `maxRetries = 3`; the delay slept after
attempt 1 is `min(100·2, 250) = 200`. -/
theorem resilience_backoff_delay_witness :
    (doRequestWithResilience true 3 100 250
        (fun _ => ExecOutcome.response 500)).delays[1]? = some 200 := by
  have h := resilience_backoff_delay 3 100 250 (fun _ => ExecOutcome.response 500) 1
    (by decide) (by decide)
  rw [h]
  decide

end WeatherAgg
